import Mathlib

/-!
Verification of the staged ad-generation workflow (React app `App.tsx`,
service layer `services/geminiService.ts`, and the editor/selector
components) against its natural-language specification.

The embedding is shallow: the dynamic JavaScript values that flow through
the pipeline (results of `JSON.parse`) are modelled by an inductive `Json`
type, the stateful React component is modelled as a record `AppState` with
each event handler a pure state transformer, and the external generative
provider is modelled as an explicit parameter (`ProviderResult`, or a
function from the assembled prompt to a `ProviderResult`).
-/

set_option maxRecDepth 65536
set_option maxHeartbeats 2000000

namespace AdGen

/-- A JSON value as produced by `JSON.parse`.  Numbers are kept as their
source lexeme (a string) because no behaviour of this program depends on
numeric values.  Objects are association lists in property insertion
order, mirroring JavaScript object semantics. -/
inductive Json where
  | null : Json
  | bool (b : Bool) : Json
  | num (lexeme : String) : Json
  | str (s : String) : Json
  | arr (elems : List Json) : Json
  | obj (fields : List (String × Json)) : Json
deriving Repr

/-- The fields of a JavaScript object: an association list in property
insertion order. -/
abbrev Obj := List (String × Json)

/-- JavaScript property read `o[k]`: the value at key `k`, or `none`
(i.e. `undefined`) when the key is absent.  Keys in an `Obj` are unique
by construction (see `jset`), so first-match lookup is exact. -/
def jget : Obj → String → Option Json
  | [], _ => none
  | (k', v) :: rest, k => if k' = k then some v else jget rest k

/-- JavaScript property write `o[k] = v`: overwrites the value at key `k`
keeping its original position, or appends the key at the end when it is
absent — exactly the JavaScript object-assignment semantics. -/
def jset : Obj → String → Json → Obj
  | [], k, v => [(k, v)]
  | (k', v') :: rest, k, v =>
      if k' = k then (k', v) :: rest else (k', v') :: jset rest k v

/-- The whitespace characters JSON's grammar allows between tokens. -/
def isJsonWs (c : Char) : Bool :=
  c = ' ' || c = '\n' || c = '\r' || c = '\t'

/-- Drop leading JSON whitespace. -/
def skipWs : List Char → List Char
  | [] => []
  | c :: cs => if isJsonWs c then skipWs cs else c :: cs

/-- Value of a hexadecimal digit, for `\u` escapes. -/
def parseHexDigit (c : Char) : Option Nat :=
  if c.isDigit then some (c.toNat - '0'.toNat)
  else if 'a' ≤ c ∧ c ≤ 'f' then some (c.toNat - 'a'.toNat + 10)
  else if 'A' ≤ c ∧ c ≤ 'F' then some (c.toNat - 'A'.toNat + 10)
  else none

/-- Body of a JSON string literal, after the opening quote: returns the
decoded string and the input following the closing quote.  Raw control
characters are rejected and the JSON escape sequences are decoded, as in
`JSON.parse`. -/
def parseStringBody : List Char → List Char → Option (String × List Char)
  | [], _ => none
  | c :: rest, acc =>
    if c = '"' then some (String.mk acc.reverse, rest)
    else if c = '\\' then
      match rest with
      | [] => none
      | e :: rest2 =>
        if e = '"' then parseStringBody rest2 ('"' :: acc)
        else if e = '\\' then parseStringBody rest2 ('\\' :: acc)
        else if e = '/' then parseStringBody rest2 ('/' :: acc)
        else if e = 'n' then parseStringBody rest2 ('\n' :: acc)
        else if e = 't' then parseStringBody rest2 ('\t' :: acc)
        else if e = 'r' then parseStringBody rest2 ('\r' :: acc)
        else if e = 'b' then parseStringBody rest2 ('\x08' :: acc)
        else if e = 'f' then parseStringBody rest2 ('\x0c' :: acc)
        else if e = 'u' then
          match rest2 with
          | h1 :: h2 :: h3 :: h4 :: rest3 =>
            match parseHexDigit h1, parseHexDigit h2,
                  parseHexDigit h3, parseHexDigit h4 with
            | some a, some b, some c3, some d =>
                parseStringBody rest3
                  (Char.ofNat (((a * 16 + b) * 16 + c3) * 16 + d) :: acc)
            | _, _, _, _ => none
          | _ => none
        else none
    else if c.toNat < 32 then none
    else parseStringBody rest (c :: acc)

/-- A run of decimal digits and the remaining input. -/
def spanDigits (cs : List Char) : List Char × List Char :=
  (cs.takeWhile Char.isDigit, cs.dropWhile Char.isDigit)

/-- The fraction part of a JSON number (empty if there is none). -/
def parseFracPart (cs : List Char) : Option (List Char × List Char) :=
  match cs with
  | '.' :: r =>
    match spanDigits r with
    | ([], _) => none
    | (ds, r2) => some ('.' :: ds, r2)
  | _ => some ([], cs)

/-- The exponent part of a JSON number (empty if there is none). -/
def parseExpPart (cs : List Char) : Option (List Char × List Char) :=
  match cs with
  | e :: r =>
    if e = 'e' ∨ e = 'E' then
      match r with
      | s :: r2 =>
        if s = '+' ∨ s = '-' then
          match spanDigits r2 with
          | ([], _) => none
          | (ds, r3) => some (e :: s :: ds, r3)
        else
          match spanDigits r with
          | ([], _) => none
          | (ds, r3) => some (e :: ds, r3)
      | [] => none
    else some ([], cs)
  | [] => some ([], cs)

/-- The integer part of a JSON number after an optional sign: either a
single `0` or a nonzero digit followed by digits (JSON forbids redundant
leading zeros). -/
def parseIntPart (cs : List Char) : Option (List Char × List Char) :=
  match cs with
  | '0' :: r => some (['0'], r)
  | c :: r =>
    if c.isDigit then
      match spanDigits r with
      | (ds, r2) => some (c :: ds, r2)
    else none
  | [] => none

/-- A JSON number lexeme: optional minus, integer part, optional fraction
and exponent.  Returns the lexeme and the remaining input. -/
def parseNumberLex (cs : List Char) : Option (String × List Char) :=
  let (sign, cs1) : List Char × List Char :=
    match cs with
    | '-' :: r => (['-'], r)
    | _ => ([], cs)
  match parseIntPart cs1 with
  | none => none
  | some (ip, cs2) =>
    match parseFracPart cs2 with
    | none => none
    | some (fp, cs3) =>
      match parseExpPart cs3 with
      | none => none
      | some (ep, cs4) => some (String.mk (sign ++ ip ++ fp ++ ep), cs4)

/-- Parse the comma-separated elements of a JSON array (after the opening
bracket, when the array is known to be non-empty), using `pv` to parse
each element.  `fuel` bounds the number of elements. -/
def parseElemsWith (pv : List Char → Option (Json × List Char)) :
    Nat → List Char → Option (List Json × List Char)
  | 0, _ => none
  | fuel + 1, cs =>
    match pv cs with
    | none => none
    | some (v, r) =>
      match skipWs r with
      | ',' :: r2 =>
        match parseElemsWith pv fuel r2 with
        | some (vs, r3) => some (v :: vs, r3)
        | none => none
      | ']' :: r2 => some ([v], r2)
      | _ => none

/-- Parse the comma-separated members of a JSON object (after the opening
brace, when the object is known to be non-empty), using `pv` to parse
each value.  Members are accumulated with `jset`, so a duplicated key
keeps its first position but the later value — exactly what `JSON.parse`
does. -/
def parseMembersWith (pv : List Char → Option (Json × List Char)) :
    Nat → List Char → Obj → Option (Obj × List Char)
  | 0, _, _ => none
  | fuel + 1, cs, acc =>
    match skipWs cs with
    | '"' :: rest =>
      match parseStringBody rest [] with
      | none => none
      | some (k, r) =>
        match skipWs r with
        | ':' :: r2 =>
          match pv r2 with
          | none => none
          | some (v, r3) =>
            match skipWs r3 with
            | ',' :: r4 => parseMembersWith pv fuel r4 (jset acc k v)
            | '\x7d' :: r4 => some (jset acc k v, r4)
            | _ => none
        | _ => none
    | _ => none

/-- Parse one JSON value, returning it with the remaining input.  `fuel`
bounds the nesting depth; `Json.parse` supplies more than enough. -/
def parseVal : Nat → List Char → Option (Json × List Char)
  | 0, _ => none
  | fuel + 1, cs =>
    match skipWs cs with
    | 'n' :: 'u' :: 'l' :: 'l' :: rest => some (.null, rest)
    | 't' :: 'r' :: 'u' :: 'e' :: rest => some (.bool true, rest)
    | 'f' :: 'a' :: 'l' :: 's' :: 'e' :: rest => some (.bool false, rest)
    | '"' :: rest =>
      match parseStringBody rest [] with
      | some (s, r) => some (.str s, r)
      | none => none
    | '[' :: rest =>
      (match skipWs rest with
       | ']' :: r => some (.arr [], r)
       | _ =>
         match parseElemsWith (parseVal fuel) fuel rest with
         | some (vs, r) => some (.arr vs, r)
         | none => none)
    | '\x7b' :: rest =>
      (match skipWs rest with
       | '\x7d' :: r => some (.obj [], r)
       | _ =>
         match parseMembersWith (parseVal fuel) fuel rest [] with
         | some (fs, r) => some (.obj fs, r)
         | none => none)
    | cs' =>
      match parseNumberLex cs' with
      | some (lex, r) => some (.num lex, r)
      | none => none

/-- Model of `JSON.parse`: parse a complete JSON text, allowing
surrounding whitespace, and fail on anything else. -/
def Json.parse (s : String) : Option Json :=
  match parseVal (4 * (s.length + 1)) s.data with
  | some (v, rest) => if (skipWs rest).isEmpty then some v else none
  | none => none

/-- The whitespace removed by JavaScript `String.prototype.trim`
(restricted to the ASCII whitespace this program can encounter). -/
def isTrimWs (c : Char) : Bool :=
  isJsonWs c || c = '\x0b' || c = '\x0c'

/-- Model of JavaScript `text.trim()`. -/
def jsTrim (s : String) : String :=
  String.mk (((s.data.dropWhile isTrimWs).reverse.dropWhile isTrimWs).reverse)

example : Json.parse "[]" = some (Json.arr []) := rfl
example : Json.parse "[\x7b\x7d]" = some (Json.arr [Json.obj []]) := rfl
example : Json.parse "\x7bnot valid json" = none := rfl
example : Json.parse "  \x7b\"a\": [1, true, \"x\"]\x7d " =
    some (Json.obj [("a", Json.arr [Json.num "1", Json.bool true, Json.str "x"])]) := rfl
example : jsTrim "  \n [\"ok\"] \t" = "[\"ok\"]" := rfl
example : Json.parse (jsTrim " \x7b\"cta\":\"Learn More\"\x7d ") =
    some (Json.obj [("cta", Json.str "Learn More")]) := rfl

/-! ## Data model

The repository's `types.ts` is not part of the sources; the record types
below for styles and ideas are therefore modelled from the spec.  The
dynamically-typed values flowing through the pipeline (`AdConcept` lists
and the like) are represented as `Json`, which is what they really are at
runtime: every stage stores the raw result of `JSON.parse`. -/

/-- Modelled from the spec: `AdvertStyle` from the missing `types.ts` is
a record of a title and a summary, both strings. -/
structure AdvertStyle where
  title : String
  summary : String

/-- Modelled from the spec: `ConceptIdea` from the missing `types.ts` is
a record of a title and a summary, both strings. -/
structure ConceptIdea where
  title : String
  summary : String

/-- `CtaDetails` from `services/geminiService.ts`: optional destination
info.  `App.tsx` always passes plain strings (empty when the user typed
nothing), and the service consumes them only through `x || fallback`,
which treats the empty string exactly like an absent value; so both
fields are modelled as `String` with `""` meaning absent. -/
structure CtaDetails where
  url : String
  whatsapp : String

/-- The advert type chosen by the user (`'still' | 'video'`). -/
inductive AdvertType where
  | still : AdvertType
  | video : AdvertType
deriving DecidableEq, Repr

/-- The `Stage` union type of `App.tsx`. -/
inductive Stage where
  | initial
  | imageUploaded
  | advertTypeSelected
  | generatingStyles
  | stylesGenerated
  | generatingIdeas
  | ideasGenerated
  | generatingFullConcepts
  | reviewingConcepts
  | generatingHooksAndCtasForSelection
  | selectingHooksAndCtas
  | generatingFinalOutputs
  | finalOutputsGenerated
deriving DecidableEq, Repr

/-- The complete React state of the `App` component, one field per
`useState` hook.  The uploaded image file and its object URL are
abstracted as string identifiers. -/
structure AppState where
  stage : Stage
  imageFile : Option String
  imageUrl : Option String
  advertType : Option AdvertType
  ctaUrl : String
  ctaWhatsApp : String
  priceTag : String
  brandGuidelines : String
  userConcept : String
  copyLanguage : String
  advertStyles : Json
  selectedStyle : Option AdvertStyle
  conceptIdeas : Json
  adConcepts : Json
  editableConcepts : Json
  reviewIndex : Nat
  hooksAndCtasForSelection : Option Json
  imageGenPrompts : Option Json
  videoScripts : Option Json
  error : Option String
  isEnhancingStyling : Bool

/-! ## Service layer (`services/geminiService.ts`)

Every stage sends a prompt (plus the image and a declared response
schema) to the provider and gets raw text back.  The provider is
untrusted and external, so it is modelled as data: a `ProviderResult` is
either a thrown transport error or the raw response text.  The only
local processing each stage performs on the text is
`JSON.parse(response.text.trim())`, throwing a stage-specific message
when parsing fails. -/

/-- Outcome of one `ai.models.generateContent` call: either the call
threw (network/service failure) or it returned raw text. -/
inductive ProviderResult where
  | transportError (msg : String)
  | response (text : String)

/-- The shared local result handling of every generation stage:
`try { return JSON.parse(response.text.trim()); } catch { throw new Error(invalidMsg); }`,
with a transport error propagated unchanged. -/
def svcParse (invalidMsg : String) (pr : ProviderResult) : Except String Json :=
  match pr with
  | .transportError m => .error m
  | .response t =>
    match Json.parse (jsTrim t) with
    | some j => .ok j
    | none => .error invalidMsg

def advertStylesInvalidMsg : String :=
  "The AI returned an invalid response for advert styles."

def conceptIdeasInvalidMsg : String :=
  "The AI returned an invalid response for concept ideas."

def fullConceptsInvalidMsg : String :=
  "The AI returned an invalid response for full concepts."

def hooksAndCtasInvalidMsg : String :=
  "The AI returned an invalid response for hooks and CTAs."

def imagePromptsInvalidMsg : String :=
  "The AI returned an invalid response for image prompts."

def videoScriptsInvalidMsg : String :=
  "The AI returned an invalid response for video scripts."

/-- Local acceptance step of `generateAdvertStyles`. -/
def generateAdvertStylesResult (pr : ProviderResult) : Except String Json :=
  svcParse advertStylesInvalidMsg pr

/-- Local acceptance step of `generateConceptIdeas`. -/
def generateConceptIdeasResult (pr : ProviderResult) : Except String Json :=
  svcParse conceptIdeasInvalidMsg pr

/-- Local acceptance step of `generateFullConcepts`. -/
def generateFullConceptsResult (pr : ProviderResult) : Except String Json :=
  svcParse fullConceptsInvalidMsg pr

/-- Local acceptance step of `generateHooksAndCtas`. -/
def generateHooksAndCtasResult (pr : ProviderResult) : Except String Json :=
  svcParse hooksAndCtasInvalidMsg pr

/-- Local acceptance step of `generateImagePrompts`. -/
def generateImagePromptsResult (pr : ProviderResult) : Except String Json :=
  svcParse imagePromptsInvalidMsg pr

/-- Local acceptance step of `generateVideoScripts`. -/
def generateVideoScriptsResult (pr : ProviderResult) : Except String Json :=
  svcParse videoScriptsInvalidMsg pr

/-- JavaScript `x || 'Not provided'` for a string `x`. -/
def orNotProvided (s : String) : String :=
  if s = "" then "Not provided" else s

/-- JavaScript `x || 'N/A'` for a string `x`. -/
def orNA (s : String) : String :=
  if s = "" then "N/A" else s

/-- The `format` wording interpolated into the prompts. -/
def formatText (advertType : AdvertType) : String :=
  if advertType = .still then "still image" else "short 8-10 second video"

/-- The `budget` wording interpolated into the full-concepts prompt. -/
def budgetText (advertType : AdvertType) : String :=
  if advertType = .video then "$300,000 video commercial"
  else "high-end commercial photoshoot"

/-! ### Prompt assembly

The prompt templates are transcribed from the service's template
literals, with each `${...}` interpolation turned into string
concatenation.  Apostrophes inside the literals are written as the
escape `\x27`. -/

/-- The `coreInstruction` shared by both branches of
`generateConceptIdeas`. -/
def coreInstruction (fmt : String) (selectedStyle : AdvertStyle) : String :=
  "Your task is to generate 5 distinct, highly trending, and attention-grabbing ad concept IDEAS for a "
  ++ fmt
  ++ ", all aligned with the chosen ad style: \"" ++ selectedStyle.title ++ ": "
  ++ selectedStyle.summary
  ++ "\". These should be high-level summaries, not full plans. Focus on what\x27s current, viral, and proven to have a high CTR for this product category within the specified ad style."

/-- The opening words of the enhancement framing, up to the first
interpolation. -/
def enhanceOpening : String :=
  "You are a world-class AI creative director specializing in enhancing raw ideas into high-performing campaigns. A user has provided an image, their initial ad concept, a chosen format ("

/-- The opening words of the invent-from-guidelines framing, up to the
first interpolation. -/
def inventOpening : String :=
  "You are a world-class AI creative director. A user has provided an image, brand guidelines, a chosen format ("

/-- The instruction `generateConceptIdeas` assembles when a user concept
draft is supplied (the `if (userConcept)` branch). -/
def ideaPromptEnhance (fmt : String) (brandGuidelines userConcept : String)
    (selectedStyle : AdvertStyle) : String :=
  enhanceOpening
  ++ fmt
  ++ "), and a guiding ad style.\n        Your task is to act as a creative partner. Take the user\x27s core idea and elevate it by blending it with 5 distinct, highly trending, and proven high-CTR (Click-Through Rate) strategies relevant to the product type, chosen format, and ad style. The goal is not to replace their idea, but to show them five professional, enhanced variations of it.\n\n        "
  ++ coreInstruction fmt selectedStyle
  ++ "\n\n        USER INPUTS:\n        - Chosen Ad Style: \"" ++ selectedStyle.title
  ++ "\"\n        - " ++ "User\x27s Raw Ad Concept to Enhance: \"" ++ userConcept ++ "\""
  ++ "\n        - Brand Guidelines to consider: \"" ++ orNA brandGuidelines ++ "\""

/-- The instruction `generateConceptIdeas` assembles when no user concept
draft is supplied (the `else` branch). -/
def ideaPromptInvent (fmt : String) (brandGuidelines : String)
    (selectedStyle : AdvertStyle) : String :=
  inventOpening
  ++ fmt
  ++ "), and has chosen a guiding ad style.\n        "
  ++ coreInstruction fmt selectedStyle
  ++ "\n\n        USER INPUTS:\n        - Chosen Ad Style: \"" ++ selectedStyle.title
  ++ "\"\n        - Brand Guidelines: \"" ++ orNA brandGuidelines ++ "\""

/-- The prompt-assembly of `generateConceptIdeas`: branches on the
truthiness of `userConcept` (a non-empty draft selects the enhancement
framing).  `ctaDetails` is accepted by the stage but not interpolated
into this prompt, as in the source. -/
def generateConceptIdeasPrompt (ctaDetails : CtaDetails)
    (brandGuidelines userConcept : String) (selectedStyle : AdvertStyle)
    (advertType : AdvertType) : String :=
  if userConcept = "" then
    ideaPromptInvent (formatText advertType) brandGuidelines selectedStyle
  else
    ideaPromptEnhance (formatText advertType) brandGuidelines userConcept selectedStyle

/-- The documented four-way CTA precedence rule, as it appears verbatim
inside the full-concepts prompt. -/
def fullConceptsCtaRuleText : String :=
  "The CTA must be context-aware: if a URL is given, use it. If a WhatsApp number is given, use it. If both, suggest a CTA that incorporates both. If neither, use a generic CTA like \"Learn More\"."

/-- The prompt assembled by `generateFullConcepts`.  The caller
(`handleGenerateFullConcepts`) guarantees exactly two chosen ideas, which
the source indexes as `selectedIdeas[0]` and `selectedIdeas[1]`; they are
passed here as `idea0` and `idea1`. -/
def fullConceptsPrompt (ctaDetails : CtaDetails) (brandGuidelines : String)
    (idea0 idea1 : ConceptIdea) (advertType : AdvertType)
    (selectedStyle : AdvertStyle) : String :=
  "You are a world-class AI producer for a high-end creative agency. Your task is to take two user-selected ad concept ideas and flesh them out into complete, professional, agency-grade plans for a "
  ++ formatText advertType
  ++ ", reflecting a "
  ++ budgetText advertType
  ++ ". The final output must be extremely detailed, actionable, and optimized for high CTR, all while adhering to the user\x27s chosen ad style.\n\n    INITIAL USER INPUTS:\n    - Target Format: "
  ++ formatText advertType
  ++ "\n    - Chosen Ad Style: \"" ++ selectedStyle.title ++ ": "
  ++ selectedStyle.summary
  ++ "\"\n    - " ++ "Website for CTA: \"" ++ orNotProvided ctaDetails.url ++ "\""
  ++ "\n    - " ++ "WhatsApp for CTA: \"" ++ orNotProvided ctaDetails.whatsapp ++ "\""
  ++ "\n    - Brand Guidelines: \"" ++ orNA brandGuidelines
  ++ "\"\n\n    USER\x27S CHOSEN CONCEPTS:\n    1. Title: \"" ++ idea0.title
  ++ "\", Summary: \"" ++ idea0.summary
  ++ "\"\n    2. Title: \"" ++ idea1.title
  ++ "\", Summary: \"" ++ idea1.summary
  ++ "\"\n    \n    For EACH of the two chosen concepts, generate a complete plan.\n    1.  **Craft Ad Copy:** Write a compelling hook, ad copy, and a strong CTA. "
  ++ fullConceptsCtaRuleText
  ++ "\n    2.  **Provide High-End Details:** For a still, detail the \x27shootSetup\x27. For a video, detail the \x27sceneDescription\x27. Recommend high-end cameras (e.g., ARRI Alexa, RED Komodo, Hasselblad, Phase One), lenses, and settings appropriate for a major commercial production. Include video-specific details like camera movement and sound design if it\x27s a video.\n    3.  **Justify Trend:** Explain why this high-budget execution will be attention-grabbing and lead to high CTR.\n\n    "
  ++ "Output a JSON array containing exactly TWO ad concept objects"
  ++ ", one for each selected idea."

/-- The CTA rule as it appears verbatim inside the hooks/CTAs prompt. -/
def hooksCtaRuleText : String :=
  "These CTAs MUST intelligently incorporate the provided Website URL and/or WhatsApp number. If both are provided, create CTAs that leverage them together (e.g., \"Shop now at our website or message us on WhatsApp!\"). If only one is provided, use it directly."

/-- The prompt assembled by `generateHooksAndCtas`.  The two finalized
concepts are dynamic values; `c0Option`/`c0Summary` (and likewise for the
second concept) stand for the interpolations of
`concepts[i].optionName` and `concepts[i].conceptSummary`. -/
def hooksAndCtasPrompt (c0Option c0Summary c1Option c1Summary : String)
    (ctaDetails : CtaDetails) (language : String) : String :=
  "You are a direct-response copywriting expert specializing in high-CTR ad copy. The user has two finalized ad concepts and needs a selection of punchy hooks and high-impact CTAs written in "
  ++ language
  ++ ".\n\n    USER\x27S AD CONCEPTS:\n    1. " ++ c0Option ++ ": " ++ c0Summary
  ++ "\n    2. " ++ c1Option ++ ": " ++ c1Summary
  ++ "\n\n    USER\x27S CTA DETAILS:\n    " ++ "- Website URL: " ++ orNotProvided ctaDetails.url
  ++ "\n    " ++ "- WhatsApp Number: " ++ orNotProvided ctaDetails.whatsapp
  ++ "\n\n    TASK:\n    1. Generate a list of 5 unique, punchy, and attention-grabbing HOOK lines in "
  ++ language
  ++ ". These should be versatile enough to work for either concept.\n    2. Generate a list of 5 unique, high-impact, and persuasive CALL TO ACTION (CTA) one-liners in "
  ++ language
  ++ ". "
  ++ hooksCtaRuleText
  ++ "\n\n    Output the result in a JSON object."

/-- The full-concepts stage as a function of its inputs and the external
provider: assemble the prompt, call the provider with it, and run the
local acceptance step.  (`userConcept` is accepted by the stage but not
interpolated into the prompt, as in the source.) -/
def generateFullConceptsCall (ctaDetails : CtaDetails)
    (brandGuidelines userConcept : String) (idea0 idea1 : ConceptIdea)
    (advertType : AdvertType) (selectedStyle : AdvertStyle)
    (provider : String → ProviderResult) : Except String Json :=
  svcParse fullConceptsInvalidMsg
    (provider (fullConceptsPrompt ctaDetails brandGuidelines idea0 idea1 advertType selectedStyle))

/-- The hooks/CTAs stage as a function of its inputs and the external
provider. -/
def generateHooksAndCtasCall (c0Option c0Summary c1Option c1Summary : String)
    (ctaDetails : CtaDetails) (language : String)
    (provider : String → ProviderResult) : Except String Json :=
  svcParse hooksAndCtasInvalidMsg
    (provider (hooksAndCtasPrompt c0Option c0Summary c1Option c1Summary ctaDetails language))

/-! ### Declared output schema of the full-concepts stage

The stage sends a `responseSchema` to the provider describing the shape
it wants back.  This is the only place the format-variant shape of
`AdConcept` exists; no local check enforces it. -/

/-- A fragment of the `@google/genai` schema language, as used by this
program: string fields with an optional description, objects with
properties and a required-key list, and arrays. -/
inductive GSchema where
  | gstring (description : Option String) : GSchema
  | gobject (properties : List (String × GSchema)) (required : List String) : GSchema
  | garray (items : GSchema) : GSchema

/-- The `technicalSpecsProps` object of `generateFullConcepts`: five base
properties, plus `cameraMovement`, `editingStyle` and `soundDesign`
appended only when the advert type is video. -/
def technicalSpecsProps (isVideo : Bool) : List (String × GSchema) :=
  [ ("camera", .gstring (some "Recommended professional camera types (e.g., ARRI Alexa for video, Hasselblad X2D for still).")),
    ("lenses", .gstring (some (if isVideo then "Recommended lens style (e.g., Cinematic Anamorphic)." else "Specific professional lenses (e.g., 85mm f/1.4)."))),
    ("angles", .gstring (some (if isVideo then "Key shots and camera angles (e.g., Dynamic close-ups, wide establishing shots)." else "Key angles for the photoshoot."))),
    ("specs", .gstring (some (if isVideo then "Video resolution and framerate (e.g., 4K, 24fps)." else "Image specifications (e.g., High-resolution, 3:2 aspect ratio)."))),
    ("mood", .gstring (some "The overall mood, feeling, or aesthetic (e.g., Energetic and vibrant, dark and moody).")) ]
  ++ (if isVideo then
    [ ("cameraMovement", .gstring (some "Specific camera movements (e.g., Fast-paced dolly shots, slow pans).")),
      ("editingStyle", .gstring (some "Editing style for the video (e.g., Quick cuts, seamless transitions).")),
      ("soundDesign", .gstring (some "Key elements of the sound design and music.")) ]
  else [])

/-- The properties of one `AdConcept` in the declared schema.
`videoDuration` is set to `undefined` when the advert type is still,
which makes the key absent in the serialized schema, so it is modelled
by conditional inclusion.  The `technicalSpecs` sub-object's required
list is `Object.keys(technicalSpecsProps)`. -/
def fullConceptProps (isVideo : Bool) : List (String × GSchema) :=
  [ ("optionName", .gstring none),
    ("conceptSummary", .gstring none),
    ("shootSetup", .gstring (some (if isVideo then "Detailed scene description." else "Detailed shoot setup description."))),
    ("technicalSpecs", .gobject (technicalSpecsProps isVideo) ((technicalSpecsProps isVideo).map Prod.fst)),
    ("stylingNotes", .gstring none),
    ("postProduction", .gstring none),
    ("hookLine", .gstring none),
    ("adCopy", .gstring none),
    ("cta", .gstring none),
    ("trendReasoning", .gstring none),
    ("format", .gstring (some ("Set to \"" ++ (if isVideo then "Short Video" else "Still Image") ++ "\""))) ]
  ++ (if isVideo then
    [ ("videoDuration", .gstring (some "The total duration of the video, e.g., \"8 seconds\".")) ]
  else [])

/-- The required-key list declared for one `AdConcept`. -/
def fullConceptRequired : List String :=
  ["optionName", "conceptSummary", "shootSetup", "technicalSpecs",
   "stylingNotes", "postProduction", "hookLine", "adCopy", "cta",
   "trendReasoning", "format"]

/-- The complete `responseSchema` sent by `generateFullConcepts`: an
array of `AdConcept` objects. -/
def fullConceptsResponseSchema (isVideo : Bool) : GSchema :=
  .garray (.gobject (fullConceptProps isVideo) fullConceptRequired)

/-- Lookup of a property in a schema property list. -/
def lookupProp (props : List (String × GSchema)) (k : String) : Option GSchema :=
  (props.find? (fun p => p.1 = k)).map Prod.snd

/-! ## App component (`App.tsx`)

Each event handler is a pure state transformer.  An async handler whose
provider call is in flight passes through intermediate `generating*`
stages; the model gives the handler's net effect once the call has
resolved, with the call's outcome supplied as a `ProviderResult`
argument.  The `JSON.parse(JSON.stringify(x))` deep copy of the source
is the identity on the modelled values. -/

/-- `resetWorkflow` from `App.tsx`: returns to `imageUploaded` or
`initial`, clears every generated artifact, the chosen style, the advert
type and the error, and touches nothing else. -/
def resetWorkflow (keepImage : Bool) (s : AppState) : AppState :=
  { s with
    stage := if keepImage then Stage.imageUploaded else Stage.initial,
    imageFile := if keepImage then s.imageFile else none,
    imageUrl := if keepImage then s.imageUrl else none,
    error := none,
    advertType := none,
    advertStyles := Json.arr [],
    selectedStyle := none,
    conceptIdeas := Json.arr [],
    adConcepts := Json.arr [],
    editableConcepts := Json.arr [],
    reviewIndex := 0,
    hooksAndCtasForSelection := none,
    imageGenPrompts := none,
    videoScripts := none }

/-- `handleImageUpload` from `App.tsx`: store the file and its object
URL (abstracted here as the file identifier), reset the workflow keeping
the image, and move to `imageUploaded`. -/
def handleImageUpload (file : String) (s : AppState) : AppState :=
  let s1 := { s with imageFile := some file, imageUrl := some file }
  let s2 := resetWorkflow true s1
  { s2 with stage := Stage.imageUploaded }

/-- `handleAdvertTypeSelect` from `App.tsx`. -/
def handleAdvertTypeSelect (t : AdvertType) (s : AppState) : AppState :=
  { s with advertType := some t, stage := Stage.advertTypeSelected }

/-- `handleGenerateStyles` from `App.tsx`: guard on image and advert
type, then run the style stage; on success store the styles and advance,
on failure surface the wrapped message and return to
`advertTypeSelected`. -/
def handleGenerateStyles (s : AppState) (pr : ProviderResult) : AppState :=
  if s.imageFile.isNone || s.advertType.isNone then s
  else
    match generateAdvertStylesResult pr with
    | .ok styles =>
        { s with advertStyles := styles, stage := Stage.stylesGenerated, error := none }
    | .error m =>
        { s with error := some ("An error occurred: " ++ m),
                 stage := Stage.advertTypeSelected }

/-- `handleGenerateFullConcepts` from `App.tsx`.  The returned flag
records whether the provider call was attempted: the guard (missing
image, missing advert type, or a number of chosen ideas other than 2)
rejects before any call is made, setting only the error message.  The
success path stores the parsed concepts, deep-copies them into the
editable store, resets the review index and advances; the failure path
surfaces the wrapped message and returns to `ideasGenerated`.  In both
non-guard paths `setAdConcepts([])` has already run before the call. -/
def handleGenerateFullConcepts (s : AppState) (selectedIdeas : List Json)
    (pr : ProviderResult) : AppState × Bool :=
  if s.imageFile.isNone || s.advertType.isNone || selectedIdeas.length != 2 then
    ({ s with error := some "Something went wrong. Please start over." }, false)
  else
    let s1 := { s with adConcepts := Json.arr [], error := none }
    match generateFullConceptsResult pr with
    | .ok concepts =>
        ({ s1 with adConcepts := concepts, editableConcepts := concepts,
                   reviewIndex := 0, stage := Stage.reviewingConcepts }, true)
    | .error m =>
        ({ s1 with error := some ("An error occurred: " ++ m),
                   stage := Stage.ideasGenerated }, true)

/-- JavaScript `x.length === 0` evaluated on a dynamic value: true for an
empty array or an empty string, false otherwise (for other objects
`x.length` is `undefined`, which is not `=== 0`). -/
def jlenZero : Json → Bool
  | .arr a => a.isEmpty
  | .str s => s.isEmpty
  | _ => false

/-- `handleGenerateHooksAndCtasForSelection` from `App.tsx`: guard on
image and a non-empty editable store; then `setAdConcepts(editableConcepts)`
locks in the edits BEFORE the provider call, so this assignment persists
whatever the outcome.  On success store the options and advance; on
failure surface the wrapped message and go back to `reviewingConcepts`. -/
def handleGenerateHooksAndCtasForSelection (s : AppState)
    (pr : ProviderResult) : AppState :=
  if s.imageFile.isNone || jlenZero s.editableConcepts then s
  else
    let s1 := { s with adConcepts := s.editableConcepts }
    match generateHooksAndCtasResult pr with
    | .ok h =>
        { s1 with hooksAndCtasForSelection := some h,
                  stage := Stage.selectingHooksAndCtas, error := none }
    | .error m =>
        { s1 with error := some ("An error occurred: " ++ m),
                  stage := Stage.reviewingConcepts }

/-- `handleFinalizeAndGenerateOutputs` from `App.tsx`: lock in the
concepts carrying the selected copy, then run the branch-selected
terminal stage; on failure surface the wrapped message and return to
`selectingHooksAndCtas`. -/
def handleFinalizeAndGenerateOutputs (s : AppState)
    (conceptsWithSelectedCopy : List Obj) (pr : ProviderResult) : AppState :=
  if s.imageFile.isNone || s.advertType.isNone
      || conceptsWithSelectedCopy.length == 0 then s
  else
    let s1 := { s with adConcepts := Json.arr (conceptsWithSelectedCopy.map Json.obj) }
    match s.advertType with
    | none => s
    | some AdvertType.still =>
      match generateImagePromptsResult pr with
      | .ok p =>
          { s1 with imageGenPrompts := some p,
                    stage := Stage.finalOutputsGenerated, error := none }
      | .error m =>
          { s1 with error := some ("An error occurred: " ++ m),
                    stage := Stage.selectingHooksAndCtas }
    | some AdvertType.video =>
      match generateVideoScriptsResult pr with
      | .ok v =>
          { s1 with videoScripts := some v,
                    stage := Stage.finalOutputsGenerated, error := none }
      | .error m =>
          { s1 with error := some ("An error occurred: " ++ m),
                    stage := Stage.selectingHooksAndCtas }

/-! ### The Editable Artifact Store mutation (`handleConceptEdit`)

`handleConceptEdit` deep-copies the editable concepts, walks the dotted
field path creating `{}` for an `undefined` intermediate, and assigns
the value at the last segment.  `App.tsx` is an ES module, hence strict
mode: assigning a property on a primitive (string, number, boolean) or
reading one on `null`/`undefined` throws a `TypeError`, modelled as
`Except.error ()`.  (A named-property write on an array object would
succeed in JavaScript; no value reachable in this program has an array
where the path walk descends, and the model reports it as an error.) -/

/-- JavaScript `field.split('.')`. -/
def splitDotsAux : List Char → List Char → List String
  | [], acc => [String.mk acc.reverse]
  | c :: rest, acc =>
      if c = '.' then String.mk acc.reverse :: splitDotsAux rest []
      else splitDotsAux rest (c :: acc)

/-- JavaScript `field.split('.')` on a string. -/
def splitDots (field : String) : List String :=
  splitDotsAux field.data []

/-- The path-walking assignment at the heart of `handleConceptEdit`:
descend through all but the last segment, creating `{}` where the key is
`undefined`, then assign the value at the last segment.  Errors model
the strict-mode `TypeError`s described above. -/
def setPathE : Json → List String → Json → Except Unit Json
  | Json.obj fs, [f], v => .ok (Json.obj (jset fs f v))
  | Json.obj fs, f :: g :: rest, v =>
      (match setPathE ((jget fs f).getD (Json.obj [])) (g :: rest) v with
       | .ok c' => .ok (Json.obj (jset fs f c'))
       | .error e => .error e)
  | _, _, _ => .error ()

/-- `handleConceptEdit` from `App.tsx` as a transformer of the editable
concepts list: deep-copy (identity here), select the concept under
review, apply the dotted-path assignment, and store the result back at
the same index.  An out-of-range index models `newConcepts[reviewIndex]`
being `undefined`, on which the path walk throws. -/
def handleConceptEdit (reviewIndex : Nat) (field value : String)
    (prev : List Json) : Except Unit (List Json) :=
  match prev[reviewIndex]? with
  | none => .error ()
  | some c =>
    match setPathE c (splitDots field) (Json.str value) with
    | .ok c' => .ok (prev.set reviewIndex c')
    | .error e => .error e

/-! ### Hook/CTA selection (`HookAndCtaSelector`) -/

/-- `handleConfirm` from `HookAndCtaSelector.tsx`:
`concepts.map(concept => ({...concept, hookLine: ..., cta: ...}))`.
The selected hook and CTA for a concept come from the component's
selection records keyed by `concept.optionName`; they are abstracted
here as functions of the concept.  The object spread keeps every
existing key at its position and overwrites `hookLine` and `cta`,
which is exactly `jset` twice. -/
def handleConfirm (concepts : List Obj) (selHook selCta : Obj → Json) : List Obj :=
  concepts.map (fun c => jset (jset c "hookLine" (selHook c)) "cta" (selCta c))

/-! ## General lemmas about the embedding -/

theorem jget_jset_self (fs : Obj) (k : String) (v : Json) :
    jget (jset fs k v) k = some v := by
  induction fs with
  | nil => simp [jset, jget]
  | cons p rest ih =>
    obtain ⟨k', v'⟩ := p
    by_cases h : k' = k <;> simp [jset, jget, h, ih]

theorem jget_jset_of_ne (fs : Obj) (k q : String) (v : Json) (h : q ≠ k) :
    jget (jset fs k v) q = jget fs q := by
  induction fs with
  | nil => simp [jset, jget, Ne.symm h]
  | cons p rest ih =>
    obtain ⟨k', v'⟩ := p
    by_cases hk : k' = k
    · subst hk
      simp [jset, jget, Ne.symm h]
    · simp [jset, jget, hk]
      by_cases hq : k' = q <;> simp [hq, ih]

theorem jset_jset_same (fs : Obj) (k : String) (v w : Json) :
    jset (jset fs k v) k w = jset fs k w := by
  induction fs with
  | nil => simp [jset]
  | cons p rest ih =>
    obtain ⟨k', v'⟩ := p
    by_cases h : k' = k <;> simp [jset, h, ih]

theorem infix_chunk {α : Type} (pre m post : List α) : m <:+: (pre ++ (m ++ post)) :=
  ⟨pre, post, by simp⟩

theorem infix_append_left {α : Type} (a : List α) {m l : List α}
    (h : m <:+: l) : m <:+: (a ++ l) := by
  obtain ⟨s, t, rfl⟩ := h
  exact ⟨a ++ s, t, by simp⟩

theorem infix_prefix {α : Type} (m post : List α) : m <:+: (m ++ post) :=
  ⟨[], post, by simp⟩

theorem infix_chunk2 {α : Type} (x y w : List α) :
    (x ++ y) <:+: (x ++ (y ++ w)) :=
  ⟨[], w, by simp⟩

theorem infix_chunk3 {α : Type} (x y z w : List α) :
    (x ++ (y ++ z)) <:+: (x ++ (y ++ (z ++ w))) :=
  ⟨[], w, by simp⟩

/-- The initial React state of the `App` component: the initial value of
each `useState` hook. -/
def baseState : AppState where
  stage := Stage.initial
  imageFile := none
  imageUrl := none
  advertType := none
  ctaUrl := ""
  ctaWhatsApp := ""
  priceTag := ""
  brandGuidelines := ""
  userConcept := ""
  copyLanguage := "English"
  advertStyles := Json.arr []
  selectedStyle := none
  conceptIdeas := Json.arr []
  adConcepts := Json.arr []
  editableConcepts := Json.arr []
  reviewIndex := 0
  hooksAndCtasForSelection := none
  imageGenPrompts := none
  videoScripts := none
  error := none
  isEnhancingStyling := false

/-! ## Claims -/

/-- Claim C10: Every workflow reset — the full reset starting a new
project (`resetWorkflow false`) and the reset performed on uploading a
new image (`handleImageUpload`) — clears all generated artifacts
(styles, ideas, concepts, editable copies, hooks/CTAs, terminal
outputs), the chosen style, the chosen advert type and any error, but
leaves the user-entered form inputs (CTA URL, WhatsApp number, price
tag, brand guidelines, user concept draft, copy language) unchanged. -/
theorem resetWorkflow_preservesFormInputs (s : AppState) (file : String) :
    ((resetWorkflow false s).advertStyles = Json.arr [] ∧
     (resetWorkflow false s).selectedStyle = none ∧
     (resetWorkflow false s).conceptIdeas = Json.arr [] ∧
     (resetWorkflow false s).adConcepts = Json.arr [] ∧
     (resetWorkflow false s).editableConcepts = Json.arr [] ∧
     (resetWorkflow false s).hooksAndCtasForSelection = none ∧
     (resetWorkflow false s).imageGenPrompts = none ∧
     (resetWorkflow false s).videoScripts = none ∧
     (resetWorkflow false s).advertType = none ∧
     (resetWorkflow false s).error = none ∧
     (resetWorkflow false s).ctaUrl = s.ctaUrl ∧
     (resetWorkflow false s).ctaWhatsApp = s.ctaWhatsApp ∧
     (resetWorkflow false s).priceTag = s.priceTag ∧
     (resetWorkflow false s).brandGuidelines = s.brandGuidelines ∧
     (resetWorkflow false s).userConcept = s.userConcept ∧
     (resetWorkflow false s).copyLanguage = s.copyLanguage) ∧
    ((handleImageUpload file s).advertStyles = Json.arr [] ∧
     (handleImageUpload file s).selectedStyle = none ∧
     (handleImageUpload file s).conceptIdeas = Json.arr [] ∧
     (handleImageUpload file s).adConcepts = Json.arr [] ∧
     (handleImageUpload file s).editableConcepts = Json.arr [] ∧
     (handleImageUpload file s).hooksAndCtasForSelection = none ∧
     (handleImageUpload file s).imageGenPrompts = none ∧
     (handleImageUpload file s).videoScripts = none ∧
     (handleImageUpload file s).advertType = none ∧
     (handleImageUpload file s).error = none ∧
     (handleImageUpload file s).ctaUrl = s.ctaUrl ∧
     (handleImageUpload file s).ctaWhatsApp = s.ctaWhatsApp ∧
     (handleImageUpload file s).priceTag = s.priceTag ∧
     (handleImageUpload file s).brandGuidelines = s.brandGuidelines ∧
     (handleImageUpload file s).userConcept = s.userConcept ∧
     (handleImageUpload file s).copyLanguage = s.copyLanguage) :=
  ⟨⟨rfl, rfl, rfl, rfl, rfl, rfl, rfl, rfl, rfl, rfl, rfl, rfl, rfl, rfl, rfl, rfl⟩,
   ⟨rfl, rfl, rfl, rfl, rfl, rfl, rfl, rfl, rfl, rfl, rfl, rfl, rfl, rfl, rfl, rfl⟩⟩

/-- Claim C8: If fewer than exactly 2 chosen ConceptIdea are supplied to
the full-concept stage, the invocation is rejected with an error before
any provider call is attempted (the result is independent of the
provider outcome and the attempted-flag is `false`), and the workflow
state is left unchanged apart from the surfaced rejection message. -/
theorem fullConcepts_guardRejects (s : AppState) (selectedIdeas : List Json)
    (pr : ProviderResult) (h : selectedIdeas.length < 2) :
    handleGenerateFullConcepts s selectedIdeas pr
      = ({ s with error := some "Something went wrong. Please start over." }, false) := by
  have hne : (selectedIdeas.length != 2) = true := by
    simp [bne]
    omega
  simp [handleGenerateFullConcepts, hne]

/-- Witness for C8: the guard fires on an empty selection. -/
theorem fullConcepts_guardRejects_witness :
    handleGenerateFullConcepts baseState [] (ProviderResult.response "ignored")
      = ({ baseState with error := some "Something went wrong. Please start over." }, false) :=
  fullConcepts_guardRejects baseState [] (ProviderResult.response "ignored") (by decide)

/-- Claim C2 (amended): the local validation step of every stage rejects
exactly the responses that fail JSON parsing — a transport error is
propagated unchanged, a response whose trimmed text is not valid JSON is
rejected with the stage's invalid-provider-response message, and every
response whose trimmed text parses as JSON is accepted as-is, with no
local check of required fields or array lengths (the declared schema is
only sent to the provider). -/
theorem localValidation_parseOnly (msg t m : String) :
    (∀ j, Json.parse (jsTrim t) = some j →
        svcParse msg (ProviderResult.response t) = Except.ok j) ∧
    (Json.parse (jsTrim t) = none →
        svcParse msg (ProviderResult.response t) = Except.error msg) ∧
    svcParse msg (ProviderResult.transportError m) = Except.error m := by
  refine ⟨fun j hj => ?_, fun hn => ?_, rfl⟩
  · simp [svcParse, hj]
  · simp [svcParse, hn]

/-- Witness for C2's amended theorem: non-JSON text is rejected with the
stage-specific message. -/
theorem localValidation_parseOnly_witness :
    svcParse advertStylesInvalidMsg (ProviderResult.response "oops")
      = Except.error advertStylesInvalidMsg :=
  (localValidation_parseOnly advertStylesInvalidMsg "oops" "x").2.1 rfl

/-- Counterexample for C2 as stated: the full-concept stage's local
validation accepts the provider response `"[{}]"` — which parses as JSON
but contains one object instead of exactly 2 and omits every required
field (e.g. `optionName`) — instead of rejecting it with the
invalid-provider-response failure. -/
theorem schemaViolations_accepted_counterexample :
    generateFullConceptsResult (ProviderResult.response "[\x7b\x7d]")
        = Except.ok (Json.arr [Json.obj []]) ∧
    [Json.obj []].length ≠ 2 ∧
    jget ([] : Obj) "optionName" = none :=
  ⟨rfl, by decide, rfl⟩

/-- Claim C5: confirming a hook/CTA selection (`handleConfirm`) and
feeding the result into the terminal stage preserves every field of each
AdConcept except `hookLine` and `cta`: the confirmed list has the same
length, each confirmed concept agrees with its source concept on every
key other than `hookLine` and `cta`, and the terminal-stage handler
consumes exactly the confirmed list (it stores it unchanged as the
locked-in concepts). -/
theorem confirmSelection_preservesFields (concepts : List Obj)
    (selHook selCta : Obj → Json) :
    (handleConfirm concepts selHook selCta).length = concepts.length ∧
    (∀ (i : Nat) (c : Obj) (k : String), concepts[i]? = some c →
        k ≠ "hookLine" → k ≠ "cta" →
        ∃ c', (handleConfirm concepts selHook selCta)[i]? = some c' ∧
              jget c' k = jget c k) ∧
    (∀ (s : AppState) (pr : ProviderResult),
        s.imageFile.isNone = false → s.advertType.isNone = false →
        concepts ≠ [] →
        (handleFinalizeAndGenerateOutputs s (handleConfirm concepts selHook selCta) pr).adConcepts
          = Json.arr ((handleConfirm concepts selHook selCta).map Json.obj)) := by
  refine ⟨by simp [handleConfirm], fun i c k hi hk1 hk2 => ?_, fun s pr h1 h2 hne => ?_⟩
  · refine ⟨jset (jset c "hookLine" (selHook c)) "cta" (selCta c), ?_, ?_⟩
    · simp [handleConfirm, List.getElem?_map, hi]
    · rw [jget_jset_of_ne _ _ _ _ hk2, jget_jset_of_ne _ _ _ _ hk1]
  · have hlen : ((handleConfirm concepts selHook selCta).length == 0) = false := by
      simp [handleConfirm]
      exact hne
    cases hat : s.advertType with
    | none => rw [hat] at h2; simp at h2
    | some a =>
      cases a with
      | still =>
        unfold handleFinalizeAndGenerateOutputs
        rw [h1, h2, hlen, hat]
        cases generateImagePromptsResult pr <;> simp
      | video =>
        unfold handleFinalizeAndGenerateOutputs
        rw [h1, h2, hlen, hat]
        cases generateVideoScriptsResult pr <;> simp

/-- Witness for C5: a concrete concept keeps its `adCopy` field across
confirmation. -/
theorem confirmSelection_preservesFields_witness :
    ∃ c', (handleConfirm [[("optionName", Json.str "A"), ("adCopy", Json.str "text")]]
              (fun _ => Json.str "h") (fun _ => Json.str "c"))[0]? = some c' ∧
          jget c' "adCopy" = jget [("optionName", Json.str "A"), ("adCopy", Json.str "text")] "adCopy" :=
  (confirmSelection_preservesFields
      [[("optionName", Json.str "A"), ("adCopy", Json.str "text")]]
      (fun _ => Json.str "h") (fun _ => Json.str "c")).2.1
    0 _ "adCopy" rfl (by decide) (by decide)

/-- A successful dotted-path assignment is idempotent: re-running it on
its own result succeeds and changes nothing. -/
theorem setPathE_idem (segs : List String) (v : Json) :
    ∀ (c c' : Json), setPathE c segs v = Except.ok c' →
      setPathE c' segs v = Except.ok c' := by
  induction segs with
  | nil => intro c c' h; simp [setPathE] at h
  | cons a t ih =>
    intro c c' h
    cases t with
    | nil =>
      cases c <;> simp [setPathE] at h
      subst h
      simp [setPathE, jset_jset_same]
    | cons b rest =>
      cases c <;> simp [setPathE] at h
      rename_i fs
      cases hsp : setPathE ((jget fs a).getD (Json.obj [])) (b :: rest) v with
      | error e => rw [hsp] at h; simp at h
      | ok ch' =>
        rw [hsp] at h
        simp at h
        subst h
        have h2 : (jget (jset fs a ch') a).getD (Json.obj []) = ch' := by
          rw [jget_jset_self]
          rfl
        simp [setPathE, h2, ih _ _ hsp, jset_jset_same]

/-- Claim C7: the Editable Artifact Store mutation is idempotent —
whenever one invocation of `handleConceptEdit` with a fixed path and
value succeeds with a new store state, invoking it again with the same
path and value succeeds and leaves that state exactly unchanged. -/
theorem conceptEdit_idempotent (prev next : List Json) (i : Nat)
    (field value : String)
    (h : handleConceptEdit i field value prev = Except.ok next) :
    handleConceptEdit i field value next = Except.ok next := by
  unfold handleConceptEdit at h ⊢
  split at h
  · simp at h
  · rename_i c hp
    split at h
    · rename_i c' hs
      have hn : next = prev.set i c' := by
        injection h with h'
        exact h'.symm
      subst hn
      have hi : i < prev.length := (List.getElem?_eq_some.mp hp).1
      have hnext : (prev.set i c')[i]? = some c' :=
        List.getElem?_set_self (by simpa using hi)
      rw [hnext]
      simp [setPathE_idem _ _ _ _ hs, List.set_set]
    · simp at h

/-- Witness for C7: editing `technicalSpecs.mood` to `"calm"` twice on a
concrete store equals editing it once. -/
theorem conceptEdit_idempotent_witness :
    handleConceptEdit 0 "technicalSpecs.mood" "calm"
        [Json.obj [("technicalSpecs", Json.obj [("mood", Json.str "calm")])]]
      = Except.ok [Json.obj [("technicalSpecs", Json.obj [("mood", Json.str "calm")])]] :=
  conceptEdit_idempotent
    [Json.obj [("technicalSpecs", Json.obj [("mood", Json.str "moody")])]]
    [Json.obj [("technicalSpecs", Json.obj [("mood", Json.str "calm")])]]
    0 "technicalSpecs.mood" "calm" rfl

/-- Claim C6 (amended): for a dotted field path with at most one level
of nesting, the Editable Artifact Store mutation replaces exactly the
addressed leaf of the concept under edit with the given value — creating
the intermediate container on demand when the path's first segment is
absent — and leaves every other leaf of that concept (and every other
concept) unchanged, PROVIDED that on a two-segment path the first
segment is absent or bound to a nested object; when it is bound to a
primitive leaf the mutation fails (strict-mode TypeError) and nothing is
replaced. -/
theorem conceptEdit_replacesLeaf_amended (prev : List Json) (i : Nat)
    (fs : Obj) (field value a b : String)
    (hc : prev[i]? = some (Json.obj fs)) :
    (splitDots field = [a] →
       handleConceptEdit i field value prev
         = Except.ok (prev.set i (Json.obj (jset fs a (Json.str value)))) ∧
       jget (jset fs a (Json.str value)) a = some (Json.str value) ∧
       (∀ k, k ≠ a → jget (jset fs a (Json.str value)) k = jget fs k)) ∧
    (splitDots field = [a, b] → jget fs a = none →
       handleConceptEdit i field value prev
         = Except.ok (prev.set i (Json.obj (jset fs a (Json.obj [(b, Json.str value)])))) ∧
       (∀ k, k ≠ a → jget (jset fs a (Json.obj [(b, Json.str value)])) k = jget fs k)) ∧
    (∀ gs, splitDots field = [a, b] → jget fs a = some (Json.obj gs) →
       handleConceptEdit i field value prev
         = Except.ok (prev.set i (Json.obj (jset fs a (Json.obj (jset gs b (Json.str value)))))) ∧
       jget (jset gs b (Json.str value)) b = some (Json.str value) ∧
       (∀ k, k ≠ b → jget (jset gs b (Json.str value)) k = jget gs k) ∧
       (∀ k, k ≠ a →
          jget (jset fs a (Json.obj (jset gs b (Json.str value)))) k = jget fs k)) ∧
    (∀ (j : Nat) (r : List Json), j ≠ i →
       handleConceptEdit i field value prev = Except.ok r → r[j]? = prev[j]?) := by
  refine ⟨fun hsplit => ?_, fun hsplit hget => ?_, fun gs hsplit hget => ?_,
          fun j r hj hr => ?_⟩
  · unfold handleConceptEdit
    rw [hc, hsplit]
    exact ⟨rfl, jget_jset_self fs a (Json.str value),
           fun k hk => jget_jset_of_ne fs a k (Json.str value) hk⟩
  · unfold handleConceptEdit
    rw [hc, hsplit]
    refine ⟨?_, fun k hk => jget_jset_of_ne fs a k _ hk⟩
    simp [setPathE, hget, jset]
  · unfold handleConceptEdit
    rw [hc, hsplit]
    refine ⟨?_, jget_jset_self gs b (Json.str value),
            fun k hk => jget_jset_of_ne gs b k (Json.str value) hk,
            fun k hk => jget_jset_of_ne fs a k _ hk⟩
    simp [setPathE, hget]
  · unfold handleConceptEdit at hr
    split at hr
    · simp at hr
    · split at hr
      · rename_i c' hs
        have hn : r = prev.set i c' := by
          injection hr with h'
          exact h'.symm
        subst hn
        exact List.getElem?_set_ne (Ne.symm hj)
      · simp at hr

/-- Counterexample for C6 as stated: `"conceptSummary.note"` is a dotted
field path with one level of nesting, but on a concept whose
`conceptSummary` is a string leaf the mutation throws the strict-mode
TypeError (assigning a property on a primitive) instead of replacing the
addressed leaf — no container is created and nothing is replaced. -/
theorem conceptEdit_stringLeafPath_counterexample :
    splitDots "conceptSummary.note" = ["conceptSummary", "note"] ∧
    handleConceptEdit 0 "conceptSummary.note" "v"
        [Json.obj [("conceptSummary", Json.str "hello")]] = Except.error () :=
  ⟨rfl, rfl⟩

/-- Witness for C6's amended theorem: editing `technicalSpecs.mood` on a
concrete concept whose `technicalSpecs` is a nested object. -/
theorem conceptEdit_replacesLeaf_witness :
    handleConceptEdit 0 "technicalSpecs.mood" "calm"
        [Json.obj [("optionName", Json.str "A"),
                   ("technicalSpecs", Json.obj [("mood", Json.str "m")])]]
      = Except.ok ([Json.obj [("optionName", Json.str "A"),
                   ("technicalSpecs", Json.obj [("mood", Json.str "m")])]].set 0
          (Json.obj (jset [("optionName", Json.str "A"),
                           ("technicalSpecs", Json.obj [("mood", Json.str "m")])]
            "technicalSpecs" (Json.obj (jset [("mood", Json.str "m")] "mood" (Json.str "calm")))))) ∧
    jget (jset [("mood", Json.str "m")] "mood" (Json.str "calm")) "mood"
      = some (Json.str "calm") ∧
    (∀ k, k ≠ "mood" →
       jget (jset [("mood", Json.str "m")] "mood" (Json.str "calm")) k
         = jget [("mood", Json.str "m")] k) ∧
    (∀ k, k ≠ "technicalSpecs" →
       jget (jset [("optionName", Json.str "A"),
                   ("technicalSpecs", Json.obj [("mood", Json.str "m")])]
         "technicalSpecs" (Json.obj (jset [("mood", Json.str "m")] "mood" (Json.str "calm")))) k
         = jget [("optionName", Json.str "A"),
                 ("technicalSpecs", Json.obj [("mood", Json.str "m")])] k) :=
  (conceptEdit_replacesLeaf_amended
      [Json.obj [("optionName", Json.str "A"),
                 ("technicalSpecs", Json.obj [("mood", Json.str "m")])]]
      0 [("optionName", Json.str "A"),
         ("technicalSpecs", Json.obj [("mood", Json.str "m")])]
      "technicalSpecs.mood" "calm" "technicalSpecs" "mood" rfl).2.2.1
    [("mood", Json.str "m")] rfl rfl

/-- Claim C1 (amended): for the styles stage and the hooks/CTAs stage,
a failed execution (provider transport error, or a response failing
structural parsing) leaves the workflow in the stage it was in
immediately before the execution began, and for parse failures the
surfaced error is the wrapped invalid-provider-response message of that
stage; no generated artifact is committed by the failed execution,
EXCEPT that the hooks/CTAs stage assigns the editable concepts to the
locked-in concepts (`setAdConcepts(editableConcepts)`) before the
provider call, and that assignment persists on failure. -/
theorem stageFailure_rollback_amended (s : AppState) (t m : String) :
    (s.stage = Stage.advertTypeSelected → s.imageFile.isNone = false →
     s.advertType.isNone = false → Json.parse (jsTrim t) = none →
       (handleGenerateStyles s (ProviderResult.response t)).stage = s.stage ∧
       (handleGenerateStyles s (ProviderResult.response t)).error
         = some ("An error occurred: " ++ advertStylesInvalidMsg) ∧
       (handleGenerateStyles s (ProviderResult.response t)).advertStyles = s.advertStyles ∧
       (handleGenerateStyles s (ProviderResult.response t)).selectedStyle = s.selectedStyle ∧
       (handleGenerateStyles s (ProviderResult.response t)).conceptIdeas = s.conceptIdeas ∧
       (handleGenerateStyles s (ProviderResult.response t)).adConcepts = s.adConcepts ∧
       (handleGenerateStyles s (ProviderResult.response t)).editableConcepts = s.editableConcepts ∧
       (handleGenerateStyles s (ProviderResult.response t)).hooksAndCtasForSelection
         = s.hooksAndCtasForSelection ∧
       (handleGenerateStyles s (ProviderResult.response t)).imageGenPrompts = s.imageGenPrompts ∧
       (handleGenerateStyles s (ProviderResult.response t)).videoScripts = s.videoScripts) ∧
    (s.stage = Stage.advertTypeSelected → s.imageFile.isNone = false →
     s.advertType.isNone = false →
       (handleGenerateStyles s (ProviderResult.transportError m)).stage = s.stage ∧
       (handleGenerateStyles s (ProviderResult.transportError m)).error
         = some ("An error occurred: " ++ m) ∧
       (handleGenerateStyles s (ProviderResult.transportError m)).advertStyles = s.advertStyles ∧
       (handleGenerateStyles s (ProviderResult.transportError m)).adConcepts = s.adConcepts ∧
       (handleGenerateStyles s (ProviderResult.transportError m)).editableConcepts
         = s.editableConcepts) ∧
    (s.stage = Stage.reviewingConcepts → s.imageFile.isNone = false →
     jlenZero s.editableConcepts = false → Json.parse (jsTrim t) = none →
       (handleGenerateHooksAndCtasForSelection s (ProviderResult.response t)).stage = s.stage ∧
       (handleGenerateHooksAndCtasForSelection s (ProviderResult.response t)).error
         = some ("An error occurred: " ++ hooksAndCtasInvalidMsg) ∧
       (handleGenerateHooksAndCtasForSelection s (ProviderResult.response t)).adConcepts
         = s.editableConcepts ∧
       (handleGenerateHooksAndCtasForSelection s (ProviderResult.response t)).editableConcepts
         = s.editableConcepts ∧
       (handleGenerateHooksAndCtasForSelection s (ProviderResult.response t)).advertStyles
         = s.advertStyles ∧
       (handleGenerateHooksAndCtasForSelection s (ProviderResult.response t)).selectedStyle
         = s.selectedStyle ∧
       (handleGenerateHooksAndCtasForSelection s (ProviderResult.response t)).conceptIdeas
         = s.conceptIdeas ∧
       (handleGenerateHooksAndCtasForSelection s (ProviderResult.response t)).hooksAndCtasForSelection
         = s.hooksAndCtasForSelection ∧
       (handleGenerateHooksAndCtasForSelection s (ProviderResult.response t)).imageGenPrompts
         = s.imageGenPrompts ∧
       (handleGenerateHooksAndCtasForSelection s (ProviderResult.response t)).videoScripts
         = s.videoScripts) := by
  refine ⟨fun hst h1 h2 hp => ?_, fun hst h1 h2 => ?_, fun hst h1 h2 hp => ?_⟩
  · simp only [handleGenerateStyles, h1, h2, generateAdvertStylesResult, svcParse, hp,
        Bool.or_self, Bool.false_or, if_false]
    exact ⟨hst.symm, rfl, rfl, rfl, rfl, rfl, rfl, rfl, rfl, rfl⟩
  · simp only [handleGenerateStyles, h1, h2, generateAdvertStylesResult, svcParse,
        Bool.or_self, Bool.false_or, if_false]
    exact ⟨hst.symm, rfl, rfl, rfl, rfl⟩
  · simp only [handleGenerateHooksAndCtasForSelection, h1, h2,
        generateHooksAndCtasResult, svcParse, hp, Bool.or_self, Bool.false_or, if_false]
    exact ⟨hst.symm, rfl, rfl, rfl, rfl, rfl, rfl, rfl, rfl, rfl⟩

/-- A reachable pre-execution state of the hooks/CTAs stage: the user is
reviewing concepts that carry edits not yet locked in (the editable copy
differs from the stored concepts). -/
def hooksPreState : AppState :=
  { baseState with
    stage := Stage.reviewingConcepts,
    imageFile := some "product.png",
    imageUrl := some "product.png",
    advertType := some AdvertType.still,
    adConcepts := Json.arr [],
    editableConcepts := Json.arr [Json.obj [("optionName", Json.str "A")]] }

/-- Counterexample for C1 as stated: a hooks/CTAs stage execution that
fails structural parsing nonetheless alters the accumulated workflow
state — the editable concepts are locked into `adConcepts` before the
provider call, and that commit persists after the failure. -/
theorem hooksFailure_locksIn_counterexample :
    (handleGenerateHooksAndCtasForSelection hooksPreState
        (ProviderResult.response "\x7bnot valid json")).error
      = some ("An error occurred: " ++ hooksAndCtasInvalidMsg) ∧
    (handleGenerateHooksAndCtasForSelection hooksPreState
        (ProviderResult.response "\x7bnot valid json")).adConcepts
      ≠ hooksPreState.adConcepts := by
  refine ⟨rfl, ?_⟩
  have h1 : (handleGenerateHooksAndCtasForSelection hooksPreState
      (ProviderResult.response "\x7bnot valid json")).adConcepts
      = Json.arr [Json.obj [("optionName", Json.str "A")]] := rfl
  have h2 : hooksPreState.adConcepts = Json.arr [] := rfl
  rw [h1, h2]
  intro h
  simp at h

/-- Witness for C1's amended theorem, at the hooks/CTAs stage with a
non-JSON provider response. -/
theorem stageFailure_rollback_witness :
    (handleGenerateHooksAndCtasForSelection hooksPreState
        (ProviderResult.response "\x7bnot valid json")).stage = hooksPreState.stage ∧
    (handleGenerateHooksAndCtasForSelection hooksPreState
        (ProviderResult.response "\x7bnot valid json")).error
      = some ("An error occurred: " ++ hooksAndCtasInvalidMsg) ∧
    (handleGenerateHooksAndCtasForSelection hooksPreState
        (ProviderResult.response "\x7bnot valid json")).adConcepts
      = hooksPreState.editableConcepts ∧
    (handleGenerateHooksAndCtasForSelection hooksPreState
        (ProviderResult.response "\x7bnot valid json")).editableConcepts
      = hooksPreState.editableConcepts ∧
    (handleGenerateHooksAndCtasForSelection hooksPreState
        (ProviderResult.response "\x7bnot valid json")).advertStyles
      = hooksPreState.advertStyles ∧
    (handleGenerateHooksAndCtasForSelection hooksPreState
        (ProviderResult.response "\x7bnot valid json")).selectedStyle
      = hooksPreState.selectedStyle ∧
    (handleGenerateHooksAndCtasForSelection hooksPreState
        (ProviderResult.response "\x7bnot valid json")).conceptIdeas
      = hooksPreState.conceptIdeas ∧
    (handleGenerateHooksAndCtasForSelection hooksPreState
        (ProviderResult.response "\x7bnot valid json")).hooksAndCtasForSelection
      = hooksPreState.hooksAndCtasForSelection ∧
    (handleGenerateHooksAndCtasForSelection hooksPreState
        (ProviderResult.response "\x7bnot valid json")).imageGenPrompts
      = hooksPreState.imageGenPrompts ∧
    (handleGenerateHooksAndCtasForSelection hooksPreState
        (ProviderResult.response "\x7bnot valid json")).videoScripts
      = hooksPreState.videoScripts :=
  (stageFailure_rollback_amended hooksPreState "\x7bnot valid json" "").2.2
    rfl rfl rfl rfl

/-- Claim C4 (amended): the format-variant shape of `AdConcept` is
declared in the output schema the full-concept stage sends to the
provider — for video the `technicalSpecs` properties (and its
required-key list, which is `Object.keys` of the properties) contain
`cameraMovement`, `editingStyle` and `soundDesign`, for still image none
of the three keys are declared, the `format` field's description pins
the literal `"Still Image"`/`"Short Video"`, and the prompt demands
exactly TWO ad concept objects — but the stage does not verify any of
this locally on what the provider returns. -/
theorem formatVariant_schemaDeclared :
    ("cameraMovement" ∈ (technicalSpecsProps true).map Prod.fst ∧
     "editingStyle" ∈ (technicalSpecsProps true).map Prod.fst ∧
     "soundDesign" ∈ (technicalSpecsProps true).map Prod.fst) ∧
    ("cameraMovement" ∉ (technicalSpecsProps false).map Prod.fst ∧
     "editingStyle" ∉ (technicalSpecsProps false).map Prod.fst ∧
     "soundDesign" ∉ (technicalSpecsProps false).map Prod.fst) ∧
    (lookupProp (fullConceptProps false) "format"
       = some (GSchema.gstring (some "Set to \"Still Image\"")) ∧
     lookupProp (fullConceptProps true) "format"
       = some (GSchema.gstring (some "Set to \"Short Video\"")) ∧
     lookupProp (fullConceptProps false) "technicalSpecs"
       = some (GSchema.gobject (technicalSpecsProps false)
           ((technicalSpecsProps false).map Prod.fst)) ∧
     "videoDuration" ∉ (fullConceptProps false).map Prod.fst) ∧
    (∀ (cd : CtaDetails) (bg : String) (i0 i1 : ConceptIdea) (st : AdvertStyle),
       ("Output a JSON array containing exactly TWO ad concept objects").data
         <:+: (fullConceptsPrompt cd bg i0 i1 AdvertType.still st).data) := by
  refine ⟨⟨by decide, by decide, by decide⟩, ⟨by decide, by decide, by decide⟩,
          ⟨rfl, rfl, rfl, by decide⟩, fun cd bg i0 i1 st => ?_⟩
  simp only [fullConceptsPrompt, String.data_append, List.append_assoc]
  repeat (first | exact infix_prefix _ _ | apply infix_append_left)

/-- Counterexample for C4 as stated: with the still-image format chosen,
the full-concept stage accepts the provider response `"[]"` and returns
zero AdConcepts instead of exactly 2 with format `"Still Image"` — the
declared variant shape is not enforced on the stage's result. -/
theorem formatVariant_notEnforced_counterexample :
    generateFullConceptsResult (ProviderResult.response "[]")
      = Except.ok (Json.arr []) ∧
    ([] : List Json).length ≠ 2 :=
  ⟨rfl, by decide⟩

/-- Claim C3 (amended): the code never computes any CTA text itself; the
four-way precedence rule exists as instruction text inside the prompts,
which the prompt assembly encodes deterministically and totally — for
every presence combination of `{url, whatsapp}` the full-concepts prompt
and the hooks/CTAs prompt embed each value verbatim when present and the
literal `Not provided` when absent, together with the verbatim statement
of the four-way rule; the CTA strings themselves come back from the
provider. -/
theorem ctaPrecedence_promptEncoding :
    (∀ (cd : CtaDetails) (bg : String) (i0 i1 : ConceptIdea)
       (adv : AdvertType) (st : AdvertStyle),
       ("Website for CTA: \"" ++ orNotProvided cd.url ++ "\"").data
         <:+: (fullConceptsPrompt cd bg i0 i1 adv st).data ∧
       ("WhatsApp for CTA: \"" ++ orNotProvided cd.whatsapp ++ "\"").data
         <:+: (fullConceptsPrompt cd bg i0 i1 adv st).data ∧
       fullConceptsCtaRuleText.data <:+: (fullConceptsPrompt cd bg i0 i1 adv st).data) ∧
    (∀ (c0o c0s c1o c1s : String) (cd : CtaDetails) (lang : String),
       ("- Website URL: " ++ orNotProvided cd.url).data
         <:+: (hooksAndCtasPrompt c0o c0s c1o c1s cd lang).data ∧
       ("- WhatsApp Number: " ++ orNotProvided cd.whatsapp).data
         <:+: (hooksAndCtasPrompt c0o c0s c1o c1s cd lang).data ∧
       hooksCtaRuleText.data <:+: (hooksAndCtasPrompt c0o c0s c1o c1s cd lang).data) ∧
    (orNotProvided "" = "Not provided" ∧
     orNotProvided "https://x.com" = "https://x.com") := by
  refine ⟨fun cd bg i0 i1 adv st => ⟨?_, ?_, ?_⟩,
          fun c0o c0s c1o c1s cd lang => ⟨?_, ?_, ?_⟩, rfl, rfl⟩ <;>
    simp only [fullConceptsPrompt, hooksAndCtasPrompt, String.data_append,
      List.append_assoc] <;>
    repeat (first | exact infix_chunk3 _ _ _ _ | exact infix_chunk2 _ _ _ |
                    exact infix_prefix _ _ | apply infix_append_left)

/-- Counterexample for C3 as stated: the assembled CTA text is not
produced by the code's four-way rule — with both url and whatsapp
present, a provider that answers with the generic CTA `"Learn More"`
(referencing neither destination) has its answer accepted verbatim by
the full-concept stage. -/
theorem ctaText_providerControlled_counterexample :
    generateFullConceptsCall ⟨"https://x.com", "+1234567890"⟩ "" ""
        ⟨"Idea A", "Summary A"⟩ ⟨"Idea B", "Summary B"⟩ AdvertType.still
        ⟨"Style", "Style summary"⟩
        (fun _ => ProviderResult.response "[\x7b\"cta\":\"Learn More\"\x7d]")
      = Except.ok (Json.arr [Json.obj [("cta", Json.str "Learn More")]]) ∧
    ("https://x.com" : String) ≠ "" ∧
    ("+1234567890" : String) ≠ "" ∧
    ¬ ("https://x.com".data <:+: "Learn More".data) ∧
    ¬ ("+1234567890".data <:+: "Learn More".data) :=
  ⟨rfl, by decide, by decide, by decide, by decide⟩

/-- Claim C9: for a non-empty user concept draft the idea-generation
stage assembles the enhancement framing, embedding the draft itself; for
an empty draft it assembles the invent-from-guidelines framing; and the
two framings are distinct for every combination of the remaining
inputs. -/
theorem ideaPrompt_branchFraming (cd : CtaDetails) (bg : String)
    (st : AdvertStyle) (adv : AdvertType) (uc : String) (huc : uc ≠ "") :
    generateConceptIdeasPrompt cd bg uc st adv
      = ideaPromptEnhance (formatText adv) bg uc st ∧
    generateConceptIdeasPrompt cd bg "" st adv
      = ideaPromptInvent (formatText adv) bg st ∧
    ("User\x27s Raw Ad Concept to Enhance: \"" ++ uc ++ "\"").data
      <:+: (generateConceptIdeasPrompt cd bg uc st adv).data ∧
    (∀ (cd' : CtaDetails) (bg' : String) (st' : AdvertStyle) (adv' : AdvertType),
       generateConceptIdeasPrompt cd bg uc st adv
         ≠ generateConceptIdeasPrompt cd' bg' "" st' adv') := by
  have henh : generateConceptIdeasPrompt cd bg uc st adv
      = ideaPromptEnhance (formatText adv) bg uc st := by
    simp [generateConceptIdeasPrompt, huc]
  refine ⟨henh, rfl, ?_, fun cd' bg' st' adv' h => ?_⟩
  · rw [henh]
    simp only [ideaPromptEnhance, String.data_append, List.append_assoc]
    repeat (first | exact infix_chunk3 _ _ _ _ | exact infix_chunk2 _ _ _ |
                    exact infix_prefix _ _ | apply infix_append_left)
  · rw [henh] at h
    rw [show generateConceptIdeasPrompt cd' bg' "" st' adv'
          = ideaPromptInvent (formatText adv') bg' st' from rfl] at h
    unfold ideaPromptEnhance ideaPromptInvent at h
    have hdata := congrArg String.data h
    repeat rw [String.data_append] at hdata
    repeat rw [List.append_assoc] at hdata
    have htake := congrArg (List.take 43) hdata
    rw [List.take_append_of_le_length
          (by decide : (43 : Nat) ≤ enhanceOpening.data.length),
        List.take_append_of_le_length
          (by decide : (43 : Nat) ≤ inventOpening.data.length)] at htake
    exact absurd htake (by decide)

/-- Witness for C9: a concrete non-empty draft is embedded in the
enhancement framing. -/
theorem ideaPrompt_branchFraming_witness :
    ("User\x27s Raw Ad Concept to Enhance: \"" ++ "a glow-in-the-dark pitch" ++ "\"").data
      <:+: (generateConceptIdeasPrompt ⟨"", ""⟩ "" "a glow-in-the-dark pitch"
              ⟨"Bold Minimalism", "Clean shots"⟩ AdvertType.still).data :=
  (ideaPrompt_branchFraming ⟨"", ""⟩ "" ⟨"Bold Minimalism", "Clean shots"⟩
      AdvertType.still "a glow-in-the-dark pitch" (by decide)).2.2.1

end AdGen
